import Mathlib

/-!
Verification of the TrussPhoto LUT-fitting engine
(scripts/color/generate_profiles.py and scripts/generate_lut.py).

Shallow embedding conventions:
  - Machine floats are modelled as exact rationals; numpy vectorized
    column arithmetic on aligned arrays is modelled as a per-row map.
  - The two numeric black boxes of the fitter, np.sqrt and the first
    component of np.linalg.lstsq, are irrational in general, so the
    model is parametric in them (SqrtFn, Solver).  np.linalg.lstsq is a
    total function on shape-valid input: rank-deficient and
    underdetermined systems get a minimum-norm solution, they do not
    raise, which the total Solver type records.
  - Boolean numpy masks are List Bool; fancy indexing arr[mask] is
    boolSelect; np.where(mask)[0] is trueIndices.
-/

namespace TrussPhoto

/-- An RGB (or (L, r, g)) triple, one row of an (N, 3) array. -/
abbrev V3 := ℚ × ℚ × ℚ

/-- Model of np.sqrt on nonnegative scalars (floating sqrt is not rational). -/
abbrev SqrtFn := ℚ → ℚ

/-- Model of the first return value of np.linalg.lstsq: rows of X, rows of
the target matrix, result is the coefficient matrix M as a list of rows
(one triple of output-channel coefficients per polynomial term). -/
abbrev Solver := List (List ℚ) → List V3 → List V3

/-! Generic list helpers modelling numpy primitives. -/

/-- Strided slice a[::step] (step at least 1): the elements whose index is a
multiple of step, in order. -/
def everyNth (step : ℕ) (l : List V3) : List V3 :=
  ((List.range l.length).filter (fun i => i % step == 0)).map (fun i => l.getD i (0, 0, 0))

/-- Fancy boolean indexing arr[mask]: keep the entries at true positions. -/
def boolSelect {α : Type} : List Bool → List α → List α
  | true :: ms, x :: xs => x :: boolSelect ms xs
  | false :: ms, _ :: xs => boolSelect ms xs
  | _, _ => []

/-- mask.sum() for a boolean mask: the number of true entries. -/
def countTrue (mask : List Bool) : ℕ := mask.count true

/-- np.where(mask)[0]: the indices of the true entries, in increasing order. -/
def trueIndices (mask : List Bool) : List ℕ :=
  (List.range mask.length).filter (fun i => mask.getD i false)

/-- Sum of a list of rationals (np.sum). -/
def listSum (xs : List ℚ) : ℚ := xs.foldr (fun a b => a + b) 0

/-- np.mean.  On the empty list this is 0/0 = 0 in the model, where numpy
would give NaN; no claim depends on the empty case. -/
def listMean (xs : List ℚ) : ℚ := listSum xs / (xs.length : ℚ)

/-- np.std (population standard deviation, ddof = 0), parametric in sqrt. -/
def npStd (sqrtFn : SqrtFn) (xs : List ℚ) : ℚ :=
  sqrtFn (listMean (xs.map (fun x => (x - listMean xs) ^ 2)))

/-- Componentwise difference of two RGB rows. -/
def sub3 (a b : V3) : V3 := (a.1 - b.1, a.2.1 - b.2.1, a.2.2 - b.2.2)

/-- np.sum(v ** 2, axis=1) for one row: the squared Euclidean norm. -/
def sqnorm3 (a : V3) : ℚ := a.1 ^ 2 + a.2.1 ^ 2 + a.2.2 ^ 2

/-- One row of X @ M: dot the feature row with each of the three
coefficient columns of M. -/
def matVec3 (row : List ℚ) (M : List V3) : V3 :=
  (row.zip M).foldr
    (fun p acc => (p.1 * p.2.1 + acc.1, p.1 * p.2.2.1 + acc.2.1, p.1 * p.2.2.2 + acc.2.2))
    (0, 0, 0)

/-- np.clip(x, 0, 1) for a scalar. -/
def clip01 (x : ℚ) : ℚ := min (max x 0) 1

/-- np.clip(v, 0, 1) componentwise on a row. -/
def clip3 (v : V3) : V3 := (clip01 v.1, clip01 v.2.1, clip01 v.2.2)

/-! The color-space transform (generate_profiles.py lines 205-221). -/

/-- EPS = 1e-6, the division guard for black pixels. -/
def EPS : ℚ := 1 / 1000000

/-- rgb_to_lrg_single: convert one RGB triple to (L, r, g)
(generate_profiles.py lines 218-221). -/
def rgb_to_lrg_single (R G B : ℚ) : V3 :=
  let S := R + G + B + EPS
  (S / 3, R / S, G / S)

/-- rgb_to_lrg: the vectorized transform (generate_profiles.py lines
208-215); columnwise arithmetic on aligned columns is a per-row map. -/
def rgb_to_lrg (rgb : List V3) : List V3 :=
  rgb.map (fun p =>
    let S := p.1 + p.2.1 + p.2.2 + EPS
    (S / 3, p.1 / S, p.2.1 / S))

/-! The polynomial feature expander (generate_profiles.py lines 224-261).
The batched and the single-triple expander are two separate term lists in
the source; they are transcribed here independently so that their
agreement (claim C4) is checked, not assumed. -/

/-- One row of expand_poly: the term list of the batched expander
(generate_profiles.py lines 232-243), with the length-n columns read at
one row. -/
def expand_poly_row (p : V3) (order : ℕ) : List ℚ :=
  let L := p.1
  let r := p.2.1
  let g := p.2.2
  let terms := [1, L, r, g, L*L, r*r, g*g, L*r, L*g, r*g]
  let terms := if 3 ≤ order then
    terms ++ [L*L*L, r*r*r, g*g*g,
              L*L*r, L*L*g, L*r*r, L*g*g, r*r*g, r*g*g, L*r*g]
    else terms
  let terms := if 4 ≤ order then
    let L2 := L*L
    let r2 := r*r
    let g2 := g*g
    terms ++ [L2*L2, r2*r2, g2*g2,
              L2*L*r, L2*L*g,
              L*r2*r, r2*r*g,
              L*g2*g, r*g2*g,
              L2*r2, L2*g2, r2*g2,
              L2*r*g, L*r2*g, L*r*g2]
    else terms
  terms

/-- expand_poly: the batched expander (generate_profiles.py lines 224-244);
np.column_stack of elementwise columns is the row-wise expansion. -/
def expand_poly (lrg : List V3) (order : ℕ) : List (List ℚ) :=
  lrg.map (fun p => expand_poly_row p order)

/-- expand_poly_single: the single-triple expander (generate_profiles.py
lines 247-261), transcribed from its own term list. -/
def expand_poly_single (L r g : ℚ) (order : ℕ) : List ℚ :=
  let terms := [1, L, r, g, L*L, r*r, g*g, L*r, L*g, r*g]
  let terms := if 3 ≤ order then
    terms ++ [L*L*L, r*r*r, g*g*g,
              L*L*r, L*L*g, L*r*r, L*g*g, r*r*g, r*g*g, L*r*g]
    else terms
  let terms := if 4 ≤ order then
    let L2 := L*L
    let r2 := r*r
    let g2 := g*g
    terms ++ [L2*L2, r2*r2, g2*g2,
              L2*L*r, L2*L*g,
              L*r2*r, r2*r*g,
              L*g2*g, r*g2*g,
              L2*r2, L2*g2, r2*g2,
              L2*r*g, L*r2*g, L*r*g2]
    else terms
  terms

/-! The robust fitter (generate_profiles.py, build_lut, lines 264-336). -/

/-- np.argsort, modelled with a stable insertion sort on indices (numpy
uses an unstable quicksort; the two differ only in the order of tied
residuals, which no verified property depends on). -/
def argsort (xs : List ℚ) : List ℕ :=
  List.insertionSort (fun a b => xs.getD a 0 ≤ xs.getD b 0) (List.range xs.length)

/-- sorted_idx[:min_survivors]: the indices, into the residual list, of
the kept samples of the floor-protection round (lines 310-311). -/
def floorKeep (resids : List ℚ) (minSurv : ℕ) : List ℕ :=
  (argsort resids).take minSurv

/-- The floor-protection mask (lines 309-314): a fresh all-false mask with
true exactly at indices[keep], where indices are the current true
positions and keep selects the minSurv smallest residuals. -/
def floorMask (n : ℕ) (mask : List Bool) (resids : List ℚ) (minSurv : ℕ) : List Bool :=
  let indices := trueIndices mask
  let kept := (floorKeep resids minSurv).map (fun j => indices.getD j 0)
  (List.range n).map (fun i => kept.contains i)

/-- The committed-round mask update (lines 323-324),
mask[indices[~inlier_local]] = False: walk the mask and replace each true
entry by the next bit of the local inlier flags. -/
def commitMask : List Bool → List Bool → List Bool
  | [], _ => []
  | false :: ms, il => false :: commitMask ms il
  | true :: ms, [] => true :: commitMask ms []
  | true :: ms, b :: il => b :: commitMask ms il

/-- min_survivors = max(100, int(n_initial * min_survivor_pct / 100.0))
(line 279).  Python int() truncates toward zero; composed with the outer
max(100, .) this equals max 100 of the floor for every pct. -/
def minSurvivorsOf (nInitial : ℕ) (pct : ℚ) : ℕ :=
  max 100 (Int.toNat ⌊(nInitial : ℚ) * pct / 100⌋)

/-- Subsampling stride step = max(1, n // 1000000) (line 275). -/
def subStep (n : ℕ) : ℕ := max 1 (n / 1000000)

/-- The model fitted on the currently masked samples (lines 292-293):
M = lstsq(expand_poly(src_lrg[mask], 4), tgt_sub[mask]). build_lut
hard-codes use_order = 4 (line 287). -/
def fitModel (lstsq : Solver) (srcLrg tgtSub : List V3) (mask : List Bool) : List V3 :=
  lstsq (expand_poly (boolSelect mask srcLrg) 4) (boolSelect mask tgtSub)

/-- The per-round residuals (lines 296-298): predictions of the
just-fitted model on the currently masked samples, then the rowwise
Euclidean norm of (pred - tgt). -/
def residualsOf (sqrtFn : SqrtFn) (lstsq : Solver) (srcLrg tgtSub : List V3)
    (mask : List Bool) : List ℚ :=
  let M := fitModel lstsq srcLrg tgtSub mask
  let X := expand_poly (boolSelect mask srcLrg) 4
  let pred := X.map (fun row => matVec3 row M)
  (pred.zip (boolSelect mask tgtSub)).map (fun p => sqrtFn (sqnorm3 (sub3 p.1 p.2)))

/-- inlier_local = residuals <= sigma_clip * np.std(residuals)
(lines 300-302). -/
def inlierLocal (sigmaClip : ℚ) (sqrtFn : SqrtFn) (resids : List ℚ) : List Bool :=
  resids.map (fun r => decide (r ≤ sigmaClip * npStd sqrtFn resids))

/-- One round of the sigma-clipping loop body (lines 292-331), parametric
in the residual computation; returns the new mask and whether the round
broke out of the loop (the floor-protection branch). -/
def clipStep (sqrtFn : SqrtFn) (sigmaClip : ℚ) (minSurv : ℕ)
    (residOf : List Bool → List ℚ) (mask : List Bool) : List Bool × Bool :=
  let residuals := residOf mask
  let il := inlierLocal sigmaClip sqrtFn residuals
  if countTrue il < minSurv then
    (floorMask mask.length mask residuals minSurv, true)
  else
    (commitMask mask il, false)

/-- The clipping loop, for clip_iter in range(clip_rounds) (line 291),
with the early break of the floor-protection branch (line 320). -/
def clipLoop (sqrtFn : SqrtFn) (sigmaClip : ℚ) (minSurv : ℕ)
    (residOf : List Bool → List ℚ) : ℕ → List Bool → List Bool
  | 0, mask => mask
  | rounds + 1, mask =>
    let s := clipStep sqrtFn sigmaClip minSurv residOf mask
    if s.2 then s.1 else clipLoop sqrtFn sigmaClip minSurv residOf rounds s.1

/-- One LUT grid cell (lines 357-360): normalize the integer index by
scale = lut_size - 1, transform to chromaticity, expand, apply the model,
clip to 0..1.  No grid node is special-cased. -/
def lutCell (M : List V3) (lutSize : ℕ) (ri gi bi : ℕ) : V3 :=
  let scale : ℚ := (lutSize : ℚ) - 1
  let lrg := rgb_to_lrg_single ((ri : ℚ) / scale) ((gi : ℚ) / scale) ((bi : ℚ) / scale)
  let features := expand_poly_single lrg.1 lrg.2.1 lrg.2.2 4
  clip3 (matVec3 features M)

/-- The configuration of build_lut: lut_size, sigma_clip, clip_rounds,
min_survivor_pct (lines 264-266). -/
structure ClipConfig where
  lutSize : ℕ
  sigmaClip : ℚ
  clipRounds : ℕ
  minSurvivorPct : ℚ

/-- What build_lut produces that the claims talk about: the final inlier
mask, the final fitted model, and the rasterized LUT indexed
lut[ri][gi][bi]. -/
structure FitResult where
  finalMask : List Bool
  model : List V3
  lut : List (List (List V3))

/-- build_lut (generate_profiles.py lines 264-370): uniform-stride
subsample, chromaticity transform, sigma-clipping loop with survivor
floor, one final least-squares fit on the final mask, and rasterization
of the lut_size cubed grid. -/
def build_lut (sqrtFn : SqrtFn) (lstsq : Solver)
    (srcAll tgtAll : List V3) (cfg : ClipConfig) : FitResult :=
  let step := subStep srcAll.length
  let srcSub := everyNth step srcAll
  let tgtSub := everyNth step tgtAll
  let nInitial := srcSub.length
  let minSurv := minSurvivorsOf nInitial cfg.minSurvivorPct
  let srcLrg := rgb_to_lrg srcSub
  let residOf := fun mask => residualsOf sqrtFn lstsq srcLrg tgtSub mask
  let mask0 := List.replicate nInitial true
  let mask := clipLoop sqrtFn cfg.sigmaClip minSurv residOf cfg.clipRounds mask0
  let M := fitModel lstsq srcLrg tgtSub mask
  let lut := (List.range cfg.lutSize).map (fun ri =>
    (List.range cfg.lutSize).map (fun gi =>
      (List.range cfg.lutSize).map (fun bi => lutCell M cfg.lutSize ri gi bi)))
  ⟨mask, M, lut⟩

/-! Spec-side rendering of one clipping round (spec section 4.3, steps
(a)-(d)), written from the spec wording to be compared with the code. -/

/-- Spec step (b): the per-sample residual is the Euclidean norm of
(predicted - target) over the RGB channels, for one currently-inlier
sample, using the just-fitted model. -/
def specResidual (sqrtFn : SqrtFn) (M : List V3) (srcLrgSample tgt : V3) : ℚ :=
  sqrtFn (sqnorm3 (sub3
    (matVec3 (expand_poly_single srcLrgSample.1 srcLrgSample.2.1 srcLrgSample.2.2 4) M) tgt))

/-- Spec steps (a)-(d): fit on the current inliers, per-sample residuals,
sigma = standard deviation of those inlier residuals (of this round's
subset, not the original set), threshold = k * sigma, and the tentative
outlier flags: exactly the samples whose residual exceeds the
threshold. -/
def specClipRound (sqrtFn : SqrtFn) (lstsq : Solver) (sigmaClip : ℚ)
    (srcLrg tgtSub : List V3) (mask : List Bool) : List Bool :=
  let M := fitModel lstsq srcLrg tgtSub mask
  let resids := ((boolSelect mask srcLrg).zip (boolSelect mask tgtSub)).map
      (fun p => specResidual sqrtFn M p.1 p.2)
  let sigma := npStd sqrtFn resids
  let threshold := sigmaClip * sigma
  resids.map (fun r => decide (threshold < r))

/-- The global indices kept by the floor-protection round. -/
def floorKept (mask : List Bool) (resids : List ℚ) (minSurv : ℕ) : List ℕ :=
  (floorKeep resids minSurv).map (fun j => (trueIndices mask).getD j 0)

/-- The two-sample degenerate input of the C1 counterexample. -/
def cexSrc : List V3 := [((1 : ℚ)/2, 1/2, 1/2), ((1 : ℚ)/2, 1/2, 1/2)]

/-! The .cube data-line writers (C8).  Only the ordering of the data
lines is modelled; a line is the lut value written on it (the 6-decimal
text formatting is orthogonal to ordering). -/

/-- Data lines of write_cube in scripts/color/generate_profiles.py
(lines 383-387): b outer loop, g middle, r inner, writing lut[r, g, b]. -/
def writeCubeData (lut : List (List (List V3))) (size : ℕ) : List V3 :=
  (List.range size).flatMap (fun b =>
    (List.range size).flatMap (fun g =>
      (List.range size).map (fun r => ((lut.getD r []).getD g []).getD b (0, 0, 0))))

/-- Data lines of write_cube in scripts/generate_lut.py (lines 198-202):
r outer loop, g middle, b inner, writing lut[r, g, b]. -/
def writeCubeDataGL (lut : List (List (List V3))) (size : ℕ) : List V3 :=
  (List.range size).flatMap (fun r =>
    (List.range size).flatMap (fun g =>
      (List.range size).map (fun b => ((lut.getD r []).getD g []).getD b (0, 0, 0))))

/-- The identity-coded 2x2x2 LUT (cell (r, g, b) holds the triple
(r, g, b)) used to exhibit the generate_lut.py ordering bug. -/
def glLutCex : List (List (List V3)) :=
  [[[(0, 0, 0), (0, 0, 1)], [(0, 1, 0), (0, 1, 1)]],
   [[(1, 0, 0), (1, 0, 1)], [(1, 1, 0), (1, 1, 1)]]]

/-! The coverage analyzer (generate_profiles.py lines 392-445) and its
dependency colorsys.rgb_to_hsv from the Python standard library. -/

def HUE_NAMES : List String :=
  ["Red", "Orange", "Yellow", "Chartreuse", "Green", "Spring",
   "Cyan", "Azure", "Blue", "Violet", "Magenta", "Rose"]

/-- colorsys.rgb_to_hsv (Python stdlib), transcribed branch for branch;
x % 1.0 on a float is the fractional part Int.fract. -/
def rgb_to_hsv (r g b : ℚ) : ℚ × ℚ × ℚ :=
  let maxc := max r (max g b)
  let minc := min r (min g b)
  let rangec := maxc - minc
  let v := maxc
  if minc = maxc then (0, 0, v)
  else
    let s := rangec / maxc
    let rc := (maxc - r) / rangec
    let gc := (maxc - g) / rangec
    let bc := (maxc - b) / rangec
    let h := if r = maxc then bc - gc else if g = maxc then rc - bc else gc - rc
    (Int.fract (h / 6), s, v)

/-- np.clip((x * bins).astype(int), 0, bins - 1): int() truncates toward
zero, which after the clip to 0..bins-1 agrees with toNat of the floor
for every input. -/
def binIdx (bins : ℕ) (x : ℚ) : ℕ :=
  min (Int.toNat ⌊x * (bins : ℚ)⌋) (bins - 1)

/-- analyze_coverage (generate_profiles.py lines 395-445).  The float
literals 0.2 and 0.3 are modelled as exact decimals.  On an empty sample
the source builds np.array([]) of shape (0,), so hsv[:, 0] raises
IndexError: that failure is the none case. -/
def analyze_coverage (srcPixels : List V3) : Option (List String) :=
  let n := srcPixels.length
  let step := max 1 (n / 200000)
  let sample := everyNth step srcPixels
  if sample.isEmpty then none
  else
    let hsv := sample.map (fun p => rgb_to_hsv p.1 p.2.1 p.2.2)
    let idx := hsv.map (fun q => (binIdx 12 q.1, binIdx 4 q.2.1, binIdx 4 q.2.2))
    let expected : ℚ := (sample.length : ℚ) / (12 * 4 * 4)
    let hueSuggestions := (List.range 12).filterMap (fun hi =>
      if ((idx.countP (fun t => t.1 == hi) : ℚ)) < expected * 4 * 4 * (2/10) then
        some (String.append (String.append "Low coverage: " (HUE_NAMES.getD hi "")) " hues")
      else none)
    let darkTotal := idx.countP (fun t => decide (2 ≤ t.2.1) && (t.2.2 == 0))
    let dark := if (darkTotal : ℚ) < expected * 12 * 2 * (2/10) then
        ["Low coverage: saturated dark tones"] else []
    let brightTotal := idx.countP (fun t => decide (2 ≤ t.2.1) && (t.2.2 == 3))
    let bright := if (brightTotal : ℚ) < expected * 12 * 2 * (2/10) then
        ["Low coverage: saturated bright tones"] else []
    let grayTotal := idx.countP (fun t => t.2.1 == 0)
    let gray := if (grayTotal : ℚ) < expected * 12 * 4 * (3/10) then
        ["Low coverage: neutral/grayscale tones"] else []
    some (hueSuggestions ++ dark ++ bright ++ gray)

/-! Lemmas and theorems. -/

/-- The batched term list agrees row-wise with the single-triple term
list, at every order (the two source lists are identical). -/
lemma expand_poly_row_eq_single (p : V3) (order : ℕ) :
    expand_poly_row p order = expand_poly_single p.1 p.2.1 p.2.2 order := rfl

/-- C4: for every chromaticity triple and every order in 2..4, the batched
expander on the single-row matrix equals the single-triple expander,
element for element and in the same order. -/
theorem expand_poly_batched_eq_single (L r g : ℚ) (order : ℕ)
    (h : order = 2 ∨ order = 3 ∨ order = 4) :
    expand_poly [(L, r, g)] order = [expand_poly_single L r g order] := by
  rcases h with rfl | rfl | rfl <;> rfl

/-- C4 witness: the equality at a concrete triple and order 3. -/
theorem expand_poly_batched_eq_single_witness :
    expand_poly [((1 : ℚ)/2, 1/3, 1/4)] 3 = [expand_poly_single ((1 : ℚ)/2) (1/3) (1/4) 3] :=
  expand_poly_batched_eq_single ((1 : ℚ)/2) (1/3) (1/4) 3 (Or.inr (Or.inl rfl))

/-- C5 counterexample: the claimed luminance formula L = (R+G+B)/3 fails at
pure black, where the code returns (R+G+B+EPS)/3 = EPS/3, not 0. -/
theorem rgb_to_lrg_luminance_counterexample :
    (rgb_to_lrg_single 0 0 0).1 ≠ ((0 : ℚ) + 0 + 0) / 3 := by
  norm_num [rgb_to_lrg_single, EPS]

/-- C5 (amended): for RGB components in 0..1 both transforms return
exactly ((R+G+B+EPS)/3, R/(R+G+B+EPS), G/(R+G+B+EPS)), and the shared
denominator R+G+B+EPS is never zero. -/
theorem rgb_to_lrg_formula (R G B : ℚ)
    (hR0 : 0 ≤ R) (hR1 : R ≤ 1) (hG0 : 0 ≤ G) (hG1 : G ≤ 1)
    (hB0 : 0 ≤ B) (hB1 : B ≤ 1) :
    rgb_to_lrg_single R G B
        = ((R + G + B + EPS) / 3, R / (R + G + B + EPS), G / (R + G + B + EPS))
    ∧ rgb_to_lrg [(R, G, B)]
        = [((R + G + B + EPS) / 3, R / (R + G + B + EPS), G / (R + G + B + EPS))]
    ∧ R + G + B + EPS ≠ 0 := by
  refine ⟨rfl, rfl, ?_⟩
  have hE : (0 : ℚ) < EPS := by norm_num [EPS]
  have : (0 : ℚ) < R + G + B + EPS := by linarith
  exact ne_of_gt this

/-- C5 witness: the amended statement instantiated at mid gray. -/
theorem rgb_to_lrg_formula_witness :
    rgb_to_lrg_single (1/2) (1/2) (1/2)
        = (((1 : ℚ)/2 + 1/2 + 1/2 + EPS) / 3, (1/2) / ((1 : ℚ)/2 + 1/2 + 1/2 + EPS),
           (1/2) / ((1 : ℚ)/2 + 1/2 + 1/2 + EPS))
    ∧ rgb_to_lrg [((1 : ℚ)/2, 1/2, 1/2)]
        = [(((1 : ℚ)/2 + 1/2 + 1/2 + EPS) / 3, (1/2) / ((1 : ℚ)/2 + 1/2 + 1/2 + EPS),
            (1/2) / ((1 : ℚ)/2 + 1/2 + 1/2 + EPS))]
    ∧ (1 : ℚ)/2 + 1/2 + 1/2 + EPS ≠ 0 :=
  rgb_to_lrg_formula (1/2) (1/2) (1/2) (by norm_num) (by norm_num) (by norm_num)
    (by norm_num) (by norm_num) (by norm_num)

/-- C2: in every clipping round, the code's residual list is exactly the
spec's per-currently-inlier-sample Euclidean residuals under the model
just fitted on those inliers, and the code's local inlier flags are the
pointwise negation of the spec's tentative outlier flags (outlier iff
residual exceeds k times the standard deviation of this round's inlier
residuals). -/
theorem clip_round_matches_spec (sqrtFn : SqrtFn) (lstsq : Solver) (sigmaClip : ℚ)
    (srcLrg tgtSub : List V3) (mask : List Bool) :
    residualsOf sqrtFn lstsq srcLrg tgtSub mask
      = ((boolSelect mask srcLrg).zip (boolSelect mask tgtSub)).map
          (fun p => specResidual sqrtFn (fitModel lstsq srcLrg tgtSub mask) p.1 p.2)
    ∧ inlierLocal sigmaClip sqrtFn (residualsOf sqrtFn lstsq srcLrg tgtSub mask)
      = (specClipRound sqrtFn lstsq sigmaClip srcLrg tgtSub mask).map (fun b => !b) := by
  have hres : residualsOf sqrtFn lstsq srcLrg tgtSub mask
      = ((boolSelect mask srcLrg).zip (boolSelect mask tgtSub)).map
          (fun p => specResidual sqrtFn (fitModel lstsq srcLrg tgtSub mask) p.1 p.2) := by
    simp only [residualsOf, expand_poly, List.map_map, List.zip_map_left, specResidual]
    rfl
  refine ⟨hres, ?_⟩
  simp only [specClipRound, inlierLocal, ← hres, List.map_map]
  refine List.map_congr_left (fun r _ => ?_)
  simp only [Function.comp_apply, ← decide_not]
  exact decide_eq_decide.mpr not_lt.symm

/-! Helper lemmas on the mask combinators. -/

lemma getD_eq_get {α : Type} (l : List α) (d : α) {j : ℕ} (h : j < l.length) :
    l.getD j d = l.get ⟨j, h⟩ := by
  rw [List.getD_eq_get?, List.get?_eq_get h]
  rfl

lemma getD_range_map {α : Type} (g : ℕ → α) {n i : ℕ} (d : α) (h : i < n) :
    ((List.range n).map g).getD i d = g i := by
  rw [List.getD_eq_get?, List.get?_map, List.get?_range h]
  rfl

lemma countTrue_cons (b : Bool) (l : List Bool) :
    countTrue (b :: l) = countTrue l + if b then 1 else 0 := by
  cases b <;> simp [countTrue, List.count_cons]

lemma countTrue_le_length (l : List Bool) : countTrue l ≤ l.length :=
  List.count_le_length _ _

lemma everyNth_length (step : ℕ) (l : List V3) :
    (everyNth step l).length = ((List.range l.length).filter (fun i => i % step == 0)).length := by
  simp [everyNth]

lemma commitMask_length : ∀ (mask il : List Bool), (commitMask mask il).length = mask.length
  | [], _ => rfl
  | false :: ms, il => by simp [commitMask, commitMask_length ms il]
  | true :: ms, [] => by simp [commitMask, commitMask_length ms []]
  | true :: ms, _ :: il => by simp [commitMask, commitMask_length ms il]

lemma countTrue_commitMask : ∀ (mask il : List Bool), il.length = countTrue mask →
    countTrue (commitMask mask il) = countTrue il
  | [], il, h => by
    have : il = [] := List.length_eq_zero.mp (by simpa [countTrue] using h)
    simp [this, commitMask]
  | false :: ms, il, h => by
    rw [commitMask, countTrue_cons, countTrue_commitMask ms il (by simpa [countTrue_cons] using h)]
    simp
  | true :: ms, [], h => by
    exfalso
    simp [countTrue_cons] at h
  | true :: ms, b :: il, h => by
    have h' : il.length = countTrue ms := by
      simpa [countTrue_cons] using h
    rw [commitMask, countTrue_cons, countTrue_commitMask ms il h', countTrue_cons]

lemma commitMask_getD_true : ∀ (mask il : List Bool) (i : ℕ),
    (commitMask mask il).getD i false = true → mask.getD i false = true
  | [], _, _, h => by simpa [commitMask] using h
  | false :: ms, il, 0, h => by simpa [commitMask] using h
  | false :: ms, il, i + 1, h => by
    rw [commitMask, List.getD_cons_succ] at h
    simpa [List.getD_cons_succ] using commitMask_getD_true ms il i h
  | true :: ms, [], 0, _ => by simp
  | true :: ms, [], i + 1, h => by
    rw [commitMask, List.getD_cons_succ] at h
    simpa [List.getD_cons_succ] using commitMask_getD_true ms [] i h
  | true :: ms, _ :: il, 0, _ => by simp
  | true :: ms, _ :: il, i + 1, h => by
    rw [commitMask, List.getD_cons_succ] at h
    simpa [List.getD_cons_succ] using commitMask_getD_true ms il i h

/-! Helper lemmas on trueIndices (np.where). -/

lemma trueIndices_nodup (mask : List Bool) : (trueIndices mask).Nodup :=
  List.Nodup.filter _ (List.nodup_range _)

lemma mem_trueIndices {mask : List Bool} {i : ℕ} :
    i ∈ trueIndices mask ↔ i < mask.length ∧ mask.getD i false = true := by
  simp [trueIndices, List.mem_filter, List.mem_range]

lemma trueIndices_cons (b : Bool) (ms : List Bool) :
    trueIndices (b :: ms) = (if b then [0] else []) ++ (trueIndices ms).map Nat.succ := by
  simp only [trueIndices, List.length_cons, List.range_succ_eq_map, List.filter_cons,
    List.filter_map, List.getD_cons_zero]
  cases b <;> simp [Function.comp_def, List.getD_cons_succ]

lemma trueIndices_length : ∀ (mask : List Bool), (trueIndices mask).length = countTrue mask
  | [] => rfl
  | b :: ms => by
    rw [trueIndices_cons]
    cases b <;> simp [countTrue_cons, trueIndices_length ms]

/-! Helper lemmas on argsort and the floor-protection round. -/

lemma argsort_perm (xs : List ℚ) : (argsort xs).Perm (List.range xs.length) :=
  List.perm_insertionSort _ _

lemma argsort_length (xs : List ℚ) : (argsort xs).length = xs.length := by
  simpa using (argsort_perm xs).length_eq

lemma argsort_nodup (xs : List ℚ) : (argsort xs).Nodup :=
  (argsort_perm xs).nodup_iff.mpr (List.nodup_range _)

lemma mem_argsort {xs : List ℚ} {a : ℕ} : a ∈ argsort xs ↔ a < xs.length := by
  rw [(argsort_perm xs).mem_iff, List.mem_range]

lemma argsort_sorted (xs : List ℚ) :
    List.Pairwise (fun a b => xs.getD a 0 ≤ xs.getD b 0) (argsort xs) := by
  haveI : IsTotal ℕ (fun a b => xs.getD a 0 ≤ xs.getD b 0) := ⟨fun a b => le_total _ _⟩
  haveI : IsTrans ℕ (fun a b => xs.getD a 0 ≤ xs.getD b 0) :=
    ⟨fun a b c hab hbc => le_trans hab hbc⟩
  exact List.sorted_insertionSort _ _

lemma floorKeep_nodup (resids : List ℚ) (minSurv : ℕ) : (floorKeep resids minSurv).Nodup :=
  (List.take_sublist _ _).nodup (argsort_nodup resids)

lemma floorKeep_length (resids : List ℚ) (minSurv : ℕ) :
    (floorKeep resids minSurv).length = min minSurv resids.length := by
  simp [floorKeep, List.length_take, argsort_length]

lemma mem_floorKeep_lt {resids : List ℚ} {minSurv j : ℕ}
    (h : j ∈ floorKeep resids minSurv) : j < resids.length :=
  mem_argsort.mp (List.take_subset _ _ h)

lemma floorKeep_min_le (resids : List ℚ) (minSurv : ℕ) {a b : ℕ}
    (ha : a ∈ floorKeep resids minSurv) (hb : b < resids.length)
    (hnb : b ∉ floorKeep resids minSurv) :
    resids.getD a 0 ≤ resids.getD b 0 := by
  have hsplit : floorKeep resids minSurv ++ (argsort resids).drop minSurv = argsort resids :=
    List.take_append_drop _ _
  have hpw := argsort_sorted resids
  rw [← hsplit] at hpw
  rcases List.pairwise_append.mp hpw with ⟨_, _, hcross⟩
  have hbmem : b ∈ argsort resids := mem_argsort.mpr hb
  rw [← hsplit] at hbmem
  rcases List.mem_append.mp hbmem with h | h
  · exact absurd h hnb
  · exact hcross a ha b h

lemma floorMask_eq_map (n : ℕ) (mask : List Bool) (resids : List ℚ) (minSurv : ℕ) :
    floorMask n mask resids minSurv
      = (List.range n).map (fun i => (floorKept mask resids minSurv).contains i) := rfl

lemma floorKept_nodup (mask : List Bool) (resids : List ℚ) (minSurv : ℕ)
    (hlen : resids.length = countTrue mask) :
    (floorKept mask resids minSurv).Nodup := by
  refine List.Nodup.map_on ?_ (floorKeep_nodup resids minSurv)
  intro x hx y hy hxy
  have hx' : x < (trueIndices mask).length := by
    rw [trueIndices_length]
    exact hlen ▸ mem_floorKeep_lt hx
  have hy' : y < (trueIndices mask).length := by
    rw [trueIndices_length]
    exact hlen ▸ mem_floorKeep_lt hy
  rw [getD_eq_get _ _ hx', getD_eq_get _ _ hy'] at hxy
  have := ((trueIndices_nodup mask).get_inj_iff).mp hxy
  exact congrArg Fin.val this

lemma floorKept_subset (mask : List Bool) (resids : List ℚ) (minSurv : ℕ)
    (hlen : resids.length = countTrue mask) {i : ℕ}
    (h : i ∈ floorKept mask resids minSurv) : i ∈ trueIndices mask := by
  rcases List.mem_map.mp h with ⟨j, hj, rfl⟩
  have hj' : j < (trueIndices mask).length := by
    rw [trueIndices_length]
    exact hlen ▸ mem_floorKeep_lt hj
  rw [getD_eq_get _ _ hj']
  exact List.get_mem _ _ hj'

lemma floorKept_length (mask : List Bool) (resids : List ℚ) (minSurv : ℕ)
    (hlen : resids.length = countTrue mask) :
    (floorKept mask resids minSurv).length = min minSurv (countTrue mask) := by
  simp [floorKept, floorKeep_length, hlen]

lemma countTrue_range_map_contains (n : ℕ) (kept : List ℕ) (hnd : kept.Nodup)
    (hsub : ∀ x ∈ kept, x < n) :
    countTrue ((List.range n).map (fun i => kept.contains i)) = kept.length := by
  rw [countTrue, List.count_eq_countP, List.countP_map]
  have hcp : (fun i => ((kept.contains i) == true)) ∘ id = fun i => kept.contains i := by
    funext i
    simp
  have : List.countP ((fun x => x == true) ∘ fun i => kept.contains i) (List.range n)
      = List.countP (fun i => kept.contains i) (List.range n) := by
    refine List.countP_congr ?_
    intro i _
    simp
  rw [this, List.countP_eq_length_filter]
  have hperm : ((List.range n).filter (fun i => kept.contains i)).Perm kept := by
    refine List.perm_of_nodup_nodup_toFinset_eq
      (List.Nodup.filter _ (List.nodup_range _)) hnd ?_
    ext x
    simp only [List.mem_toFinset, List.mem_filter, List.mem_range]
    constructor
    · rintro ⟨_, hx⟩
      simpa using hx
    · intro hx
      exact ⟨hsub x hx, by simpa using hx⟩
  exact hperm.length_eq

lemma countTrue_floorMask (mask : List Bool) (resids : List ℚ) (minSurv : ℕ)
    (hlen : resids.length = countTrue mask) :
    countTrue (floorMask mask.length mask resids minSurv) = min minSurv (countTrue mask) := by
  rw [floorMask_eq_map,
    countTrue_range_map_contains _ _ (floorKept_nodup mask resids minSurv hlen)
      (fun x hx => (mem_trueIndices.mp (floorKept_subset mask resids minSurv hlen hx)).1),
    floorKept_length mask resids minSurv hlen]

lemma floorMask_length (n : ℕ) (mask : List Bool) (resids : List ℚ) (minSurv : ℕ) :
    (floorMask n mask resids minSurv).length = n := by
  simp [floorMask]

lemma floorMask_getD_true (mask : List Bool) (resids : List ℚ) (minSurv : ℕ)
    (hlen : resids.length = countTrue mask) (i : ℕ)
    (h : (floorMask mask.length mask resids minSurv).getD i false = true) :
    mask.getD i false = true := by
  by_cases hi : i < mask.length
  · rw [floorMask_eq_map, getD_range_map _ _ hi] at h
    have : i ∈ floorKept mask resids minSurv := by simpa using h
    exact (mem_trueIndices.mp (floorKept_subset mask resids minSurv hlen this)).2
  · rw [floorMask_eq_map, List.getD_eq_default] at h
    · exact absurd h (by simp)
    · simpa using not_lt.mp hi

/-! Helper lemmas on boolSelect and the round structure. -/

lemma boolSelect_length {α : Type} : ∀ (mask : List Bool) (xs : List α),
    mask.length = xs.length → (boolSelect mask xs).length = countTrue mask
  | [], [], _ => rfl
  | [], _ :: _, h => by simp at h
  | _ :: _, [], h => by simp at h
  | true :: ms, x :: xs, h => by
    simp [boolSelect, countTrue_cons, boolSelect_length ms xs (by simpa using h)]
  | false :: ms, x :: xs, h => by
    simp [boolSelect, countTrue_cons, boolSelect_length ms xs (by simpa using h)]

lemma inlierLocal_length (sc : ℚ) (sqrtFn : SqrtFn) (resids : List ℚ) :
    (inlierLocal sc sqrtFn resids).length = resids.length := by
  simp [inlierLocal]

lemma residualsOf_length (sqrtFn : SqrtFn) (lstsq : Solver) (srcLrg tgtSub : List V3)
    (hst : srcLrg.length = tgtSub.length) (m : List Bool) (hm : m.length = srcLrg.length) :
    (residualsOf sqrtFn lstsq srcLrg tgtSub m).length = countTrue m := by
  simp [residualsOf, expand_poly, boolSelect_length m srcLrg hm,
    boolSelect_length m tgtSub (hm.trans hst)]

lemma clipStep_floor (sqrtFn : SqrtFn) (sc : ℚ) (minSurv : ℕ)
    (residOf : List Bool → List ℚ) (mask : List Bool)
    (h : countTrue (inlierLocal sc sqrtFn (residOf mask)) < minSurv) :
    clipStep sqrtFn sc minSurv residOf mask
      = (floorMask mask.length mask (residOf mask) minSurv, true) := by
  simp only [clipStep]
  rw [if_pos h]

lemma clipStep_commit (sqrtFn : SqrtFn) (sc : ℚ) (minSurv : ℕ)
    (residOf : List Bool → List ℚ) (mask : List Bool)
    (h : ¬ countTrue (inlierLocal sc sqrtFn (residOf mask)) < minSurv) :
    clipStep sqrtFn sc minSurv residOf mask
      = (commitMask mask (inlierLocal sc sqrtFn (residOf mask)), false) := by
  simp only [clipStep]
  rw [if_neg h]

lemma clipStep_fst_length (sqrtFn : SqrtFn) (sc : ℚ) (minSurv : ℕ)
    (residOf : List Bool → List ℚ) (mask : List Bool) :
    (clipStep sqrtFn sc minSurv residOf mask).1.length = mask.length := by
  by_cases h : countTrue (inlierLocal sc sqrtFn (residOf mask)) < minSurv
  · rw [clipStep_floor _ _ _ _ _ h]
    exact floorMask_length _ _ _ _
  · rw [clipStep_commit _ _ _ _ _ h]
    exact commitMask_length _ _

lemma clipLoop_count_ge (sqrtFn : SqrtFn) (sc : ℚ) (minSurv : ℕ)
    (residOf : List Bool → List ℚ) (n : ℕ)
    (hres : ∀ m, m.length = n → (residOf m).length = countTrue m) :
    ∀ (rounds : ℕ) (mask : List Bool), mask.length = n →
      min (countTrue mask) minSurv
        ≤ countTrue (clipLoop sqrtFn sc minSurv residOf rounds mask)
  | 0, mask, _ => by
    rw [clipLoop]
    exact min_le_left _ _
  | rounds + 1, mask, hm => by
    rw [clipLoop]
    by_cases hc : countTrue (inlierLocal sc sqrtFn (residOf mask)) < minSurv
    · rw [clipStep_floor _ _ _ _ _ hc]
      simp only [if_pos]
      rw [countTrue_floorMask mask _ minSurv (hres mask hm)]
      omega
    · rw [clipStep_commit _ _ _ _ _ hc]
      simp only [Bool.false_eq_true, if_false]
      have hlen_il : (inlierLocal sc sqrtFn (residOf mask)).length = countTrue mask := by
        rw [inlierLocal_length, hres mask hm]
      have hcnt : countTrue (commitMask mask (inlierLocal sc sqrtFn (residOf mask)))
          = countTrue (inlierLocal sc sqrtFn (residOf mask)) :=
        countTrue_commitMask _ _ hlen_il
      have hrec := clipLoop_count_ge sqrtFn sc minSurv residOf n hres rounds
        (commitMask mask (inlierLocal sc sqrtFn (residOf mask)))
        ((commitMask_length _ _).trans hm)
      omega

lemma clipLoop_getD_true (sqrtFn : SqrtFn) (sc : ℚ) (minSurv : ℕ)
    (residOf : List Bool → List ℚ) (n : ℕ)
    (hres : ∀ m, m.length = n → (residOf m).length = countTrue m) :
    ∀ (rounds : ℕ) (mask : List Bool), mask.length = n → ∀ i : ℕ,
      (clipLoop sqrtFn sc minSurv residOf rounds mask).getD i false = true →
        mask.getD i false = true
  | 0, mask, _, i, h => by
    rw [clipLoop] at h
    exact h
  | rounds + 1, mask, hm, i, h => by
    rw [clipLoop] at h
    by_cases hc : countTrue (inlierLocal sc sqrtFn (residOf mask)) < minSurv
    · rw [clipStep_floor _ _ _ _ _ hc] at h
      simp only [if_pos] at h
      exact floorMask_getD_true mask _ minSurv (hres mask hm) i h
    · rw [clipStep_commit _ _ _ _ _ hc] at h
      simp only [Bool.false_eq_true, if_false] at h
      have := clipLoop_getD_true sqrtFn sc minSurv residOf n hres rounds
        (commitMask mask (inlierLocal sc sqrtFn (residOf mask)))
        ((commitMask_length _ _).trans hm) i h
      exact commitMask_getD_true mask _ i this

/-- C10: the inlier mask only ever shrinks: any one round (floor branch or
committed branch alike) and the whole clipping loop can only turn true
entries false, so a sample marked outlier never re-enters a later or the
final fit. -/
theorem inlier_mask_shrinks (sqrtFn : SqrtFn) (sc : ℚ) (minSurv : ℕ)
    (residOf : List Bool → List ℚ) (mask : List Bool)
    (hres : ∀ m, m.length = mask.length → (residOf m).length = countTrue m)
    (rounds i : ℕ) :
    ((clipStep sqrtFn sc minSurv residOf mask).1.getD i false = true →
        mask.getD i false = true)
    ∧ ((clipLoop sqrtFn sc minSurv residOf rounds mask).getD i false = true →
        mask.getD i false = true) := by
  constructor
  · intro h
    by_cases hc : countTrue (inlierLocal sc sqrtFn (residOf mask)) < minSurv
    · rw [clipStep_floor _ _ _ _ _ hc] at h
      exact floorMask_getD_true mask _ minSurv (hres mask rfl) i h
    · rw [clipStep_commit _ _ _ _ _ hc] at h
      exact commitMask_getD_true mask _ i h
  · exact clipLoop_getD_true sqrtFn sc minSurv residOf mask.length hres rounds mask rfl i

lemma everyNth_length_eq {src tgt : List V3} (h : src.length = tgt.length) (step : ℕ) :
    (everyNth step src).length = (everyNth step tgt).length := by
  rw [everyNth_length, everyNth_length, h]

lemma rgb_to_lrg_length (rgb : List V3) : (rgb_to_lrg rgb).length = rgb.length := by
  simp [rgb_to_lrg]

lemma build_lut_finalMask (sqrtFn : SqrtFn) (lstsq : Solver) (src tgt : List V3)
    (cfg : ClipConfig) :
    (build_lut sqrtFn lstsq src tgt cfg).finalMask
      = clipLoop sqrtFn cfg.sigmaClip
          (minSurvivorsOf (everyNth (subStep src.length) src).length cfg.minSurvivorPct)
          (fun m => residualsOf sqrtFn lstsq (rgb_to_lrg (everyNth (subStep src.length) src))
            (everyNth (subStep src.length) tgt) m)
          cfg.clipRounds
          (List.replicate (everyNth (subStep src.length) src).length true) := rfl

lemma build_lut_hres (sqrtFn : SqrtFn) (lstsq : Solver) (src tgt : List V3)
    (hlen : src.length = tgt.length) (step : ℕ) :
    ∀ m : List Bool, m.length = (everyNth step src).length →
      (residualsOf sqrtFn lstsq (rgb_to_lrg (everyNth step src)) (everyNth step tgt) m).length
        = countTrue m := by
  intro m hm
  exact residualsOf_length sqrtFn lstsq _ _
    (by rw [rgb_to_lrg_length]; exact everyNth_length_eq hlen step)
    m (by rw [rgb_to_lrg_length]; exact hm)

/-- C1 (amended): for any Sample Set (equal-length source and target
lists) and any clip configuration, the final inlier mask of build_lut has
at least min(N_initial, max(100, floor(N_initial * p / 100))) true
entries; and when N_initial is below the floor count the floor-protection
branch keeps everything, so the final fit uses every sample. -/
theorem survivor_floor_amended (sqrtFn : SqrtFn) (lstsq : Solver) (src tgt : List V3)
    (cfg : ClipConfig) (hlen : src.length = tgt.length) :
    min (everyNth (subStep src.length) src).length
        (minSurvivorsOf (everyNth (subStep src.length) src).length cfg.minSurvivorPct)
      ≤ countTrue (build_lut sqrtFn lstsq src tgt cfg).finalMask
    ∧ ((everyNth (subStep src.length) src).length
          < minSurvivorsOf (everyNth (subStep src.length) src).length cfg.minSurvivorPct →
        countTrue (build_lut sqrtFn lstsq src tgt cfg).finalMask
          = (everyNth (subStep src.length) src).length) := by
  have hres := build_lut_hres sqrtFn lstsq src tgt hlen (subStep src.length)
  have h0len : (List.replicate (everyNth (subStep src.length) src).length true).length
      = (everyNth (subStep src.length) src).length := by simp
  have h0cnt : countTrue (List.replicate (everyNth (subStep src.length) src).length true)
      = (everyNth (subStep src.length) src).length := by simp [countTrue]
  constructor
  · have := clipLoop_count_ge sqrtFn cfg.sigmaClip
      (minSurvivorsOf (everyNth (subStep src.length) src).length cfg.minSurvivorPct)
      _ _ hres cfg.clipRounds _ h0len
    rw [h0cnt] at this
    rw [build_lut_finalMask]
    exact this
  · intro hlt
    rw [build_lut_finalMask]
    rcases hr : cfg.clipRounds with _ | rounds
    · rw [clipLoop, h0cnt]
    · have hc : countTrue (inlierLocal cfg.sigmaClip sqrtFn
          (residualsOf sqrtFn lstsq (rgb_to_lrg (everyNth (subStep src.length) src))
            (everyNth (subStep src.length) tgt)
            (List.replicate (everyNth (subStep src.length) src).length true)))
          < minSurvivorsOf (everyNth (subStep src.length) src).length cfg.minSurvivorPct := by
        have h1 := countTrue_le_length (inlierLocal cfg.sigmaClip sqrtFn
          (residualsOf sqrtFn lstsq (rgb_to_lrg (everyNth (subStep src.length) src))
            (everyNth (subStep src.length) tgt)
            (List.replicate (everyNth (subStep src.length) src).length true)))
        rw [inlierLocal_length, hres _ h0len, h0cnt] at h1
        omega
      rw [clipLoop, clipStep_floor _ _ _ _ _ hc]
      simp only [if_pos]
      rw [countTrue_floorMask _ _ _ (hres _ h0len), h0cnt]
      omega

/-- C3: when a round would leave fewer inliers than the floor, the loop
instead keeps exactly the floor count of samples, those with smallest
residuals (given at least floor-count current inliers), halts
immediately, and build_lut returns the model of one final least-squares
fit on the final mask (the identical final fit also being what runs when
all rounds are exhausted). -/
theorem floor_round_behavior (sqrtFn : SqrtFn) (sc : ℚ) (minSurv : ℕ)
    (residOf : List Bool → List ℚ) (mask : List Bool) (rounds : ℕ)
    (hres : (residOf mask).length = countTrue mask)
    (hcnt : minSurv ≤ countTrue mask)
    (hfloor : countTrue (inlierLocal sc sqrtFn (residOf mask)) < minSurv) :
    clipLoop sqrtFn sc minSurv residOf (rounds + 1) mask
        = floorMask mask.length mask (residOf mask) minSurv
    ∧ countTrue (clipLoop sqrtFn sc minSurv residOf (rounds + 1) mask) = minSurv
    ∧ (∀ a ∈ floorKeep (residOf mask) minSurv, ∀ b < (residOf mask).length,
        b ∉ floorKeep (residOf mask) minSurv →
          (residOf mask).getD a 0 ≤ (residOf mask).getD b 0)
    ∧ (∀ (lstsq : Solver) (src tgt : List V3) (cfg : ClipConfig),
        (build_lut sqrtFn lstsq src tgt cfg).model
          = fitModel lstsq (rgb_to_lrg (everyNth (subStep src.length) src))
              (everyNth (subStep src.length) tgt)
              (build_lut sqrtFn lstsq src tgt cfg).finalMask) := by
  have hloop : clipLoop sqrtFn sc minSurv residOf (rounds + 1) mask
      = floorMask mask.length mask (residOf mask) minSurv := by
    rw [clipLoop, clipStep_floor _ _ _ _ _ hfloor]
    simp
  refine ⟨hloop, ?_, ?_, ?_⟩
  · rw [hloop, countTrue_floorMask mask _ minSurv hres]
    omega
  · intro a ha b hb hnb
    exact floorKeep_min_le (residOf mask) minSurv ha hb hnb
  · intro lstsq src tgt cfg
    rfl

/-! Concrete-evaluation helpers. -/

lemma map_getD_range (l : List V3) :
    (List.range l.length).map (fun i => l.getD i (0, 0, 0)) = l := by
  apply List.ext_getElem
  · simp
  · intro i h1 h2
    simp only [List.getElem_map, List.getElem_range]
    rw [getD_eq_get _ _ h2]
    simp

lemma everyNth_one (l : List V3) : everyNth 1 l = l := by
  simp only [everyNth, Nat.mod_one]
  simpa using map_getD_range l

lemma matVec3_nil (row : List ℚ) : matVec3 row [] = (0, 0, 0) := by
  simp [matVec3]

/-- C1 counterexample: on a two-sample set with min_survivor_pct = 10 the
floor count is max(100, 0) = 100, yet the final inlier mask of build_lut
has only 2 true entries, so the claimed unconditional lower bound
max(100, p * N_initial) fails when N_initial is below the floor. -/
theorem survivor_floor_counterexample :
    countTrue (build_lut (fun q => q) (fun _ _ => []) cexSrc cexSrc
        ⟨2, 3/2, 3, 10⟩).finalMask
      < minSurvivorsOf (everyNth (subStep cexSrc.length) cexSrc).length 10 := by
  have hstep : subStep cexSrc.length = 1 := rfl
  have hsub : everyNth (subStep cexSrc.length) cexSrc = cexSrc := by
    rw [hstep, everyNth_one]
  have hn : (everyNth (subStep cexSrc.length) cexSrc).length = 2 := by
    rw [hsub]
    rfl
  have hms : minSurvivorsOf 2 10 = 100 := by
    norm_num [minSurvivorsOf]
  have hres2 : residualsOf (fun q => q) (fun _ _ => []) (rgb_to_lrg cexSrc) cexSrc [true, true]
      = [(3 : ℚ)/4, 3/4] := by
    simp only [residualsOf, fitModel, cexSrc, rgb_to_lrg, List.map_cons, List.map_nil,
      boolSelect, expand_poly, matVec3_nil, List.zip_cons_cons, List.zip_nil_right,
      sub3, sqnorm3]
    norm_num
  have hil : inlierLocal ((3 : ℚ)/2) (fun q => q) [(3 : ℚ)/4, 3/4] = [false, false] := by
    norm_num [inlierLocal, npStd, listMean, listSum]
  have hargsort : argsort [(3 : ℚ)/4, 3/4] = [0, 1] := by
    norm_num [argsort, List.insertionSort, List.orderedInsert, List.getD_cons_zero,
      List.getD_cons_succ]
  have hfloor : floorMask 2 [true, true] [(3 : ℚ)/4, 3/4] 100 = [true, true] := by
    simp only [floorMask, floorKeep, hargsort]
    decide
  have hfm : (build_lut (fun q => q) (fun _ _ => []) cexSrc cexSrc
      ⟨2, 3/2, 3, 10⟩).finalMask = [true, true] := by
    rw [build_lut_finalMask]
    have hlen2 : cexSrc.length = 2 := rfl
    have hstep2 : subStep 2 = 1 := rfl
    have hrep : List.replicate (2 : ℕ) true = [true, true] := rfl
    simp only [hlen2, hstep2, everyNth_one, hms, hrep]
    have hc : countTrue (inlierLocal ((3 : ℚ)/2) (fun q => q)
        ((fun m => residualsOf (fun q => q) (fun _ _ => []) (rgb_to_lrg cexSrc) cexSrc m)
          [true, true])) < 100 := by
      simp only []
      rw [hres2, hil]
      decide
    rw [show (3 : ℕ) = 2 + 1 from rfl, clipLoop, clipStep_floor _ _ _ _ _ hc]
    simp only []
    rw [hres2]
    simpa using hfloor
  rw [hfm, hn, hms]
  decide

/-! LUT rasterization (C6) and error behavior (C7). -/

lemma build_lut_lut (sqrtFn : SqrtFn) (lstsq : Solver) (src tgt : List V3)
    (cfg : ClipConfig) :
    (build_lut sqrtFn lstsq src tgt cfg).lut
      = (List.range cfg.lutSize).map (fun ri =>
          (List.range cfg.lutSize).map (fun gi =>
            (List.range cfg.lutSize).map (fun bi =>
              lutCell (build_lut sqrtFn lstsq src tgt cfg).model cfg.lutSize ri gi bi))) := rfl

lemma clip01_nonneg (x : ℚ) : 0 ≤ clip01 x := by
  rw [clip01]
  rcases min_cases (max x 0) 1 with ⟨h, _⟩ | ⟨h, _⟩
  · rw [h]
    exact le_max_right _ _
  · rw [h]
    norm_num

lemma clip01_le_one (x : ℚ) : clip01 x ≤ 1 := min_le_right _ _

/-- C6: every LUT cell of build_lut at in-range indices (i, j, k),
corners included, is the componentwise clip to the unit interval of the
fitted model applied to the polynomial features of the chromaticity of
the normalized input (i/(N-1), j/(N-1), k/(N-1)); hence every component
of every cell lies in the unit interval. -/
theorem lut_rasterization (sqrtFn : SqrtFn) (lstsq : Solver) (src tgt : List V3)
    (cfg : ClipConfig) (i j k : ℕ)
    (hi : i < cfg.lutSize) (hj : j < cfg.lutSize) (hk : k < cfg.lutSize) :
    ((((build_lut sqrtFn lstsq src tgt cfg).lut.getD i []).getD j []).getD k (0, 0, 0)
        = clip3 (matVec3
            (expand_poly_single
              (rgb_to_lrg_single ((i : ℚ) / ((cfg.lutSize : ℚ) - 1))
                ((j : ℚ) / ((cfg.lutSize : ℚ) - 1)) ((k : ℚ) / ((cfg.lutSize : ℚ) - 1))).1
              (rgb_to_lrg_single ((i : ℚ) / ((cfg.lutSize : ℚ) - 1))
                ((j : ℚ) / ((cfg.lutSize : ℚ) - 1)) ((k : ℚ) / ((cfg.lutSize : ℚ) - 1))).2.1
              (rgb_to_lrg_single ((i : ℚ) / ((cfg.lutSize : ℚ) - 1))
                ((j : ℚ) / ((cfg.lutSize : ℚ) - 1)) ((k : ℚ) / ((cfg.lutSize : ℚ) - 1))).2.2
              4)
            (build_lut sqrtFn lstsq src tgt cfg).model))
    ∧ (let cell := (((build_lut sqrtFn lstsq src tgt cfg).lut.getD i []).getD j []).getD k
          (0, 0, 0)
       (0 ≤ cell.1 ∧ cell.1 ≤ 1) ∧ (0 ≤ cell.2.1 ∧ cell.2.1 ≤ 1)
         ∧ (0 ≤ cell.2.2 ∧ cell.2.2 ≤ 1)) := by
  have hcell : (((build_lut sqrtFn lstsq src tgt cfg).lut.getD i []).getD j []).getD k
      (0, 0, 0) = lutCell (build_lut sqrtFn lstsq src tgt cfg).model cfg.lutSize i j k := by
    rw [build_lut_lut, getD_range_map _ _ hi, getD_range_map _ _ hj, getD_range_map _ _ hk]
  constructor
  · rw [hcell]
    rfl
  · rw [hcell]
    show (0 ≤ (lutCell _ _ i j k).1 ∧ _) ∧ _
    simp only [lutCell, clip3]
    exact ⟨⟨clip01_nonneg _, clip01_le_one _⟩, ⟨clip01_nonneg _, clip01_le_one _⟩,
      ⟨clip01_nonneg _, clip01_le_one _⟩⟩

/-- C7 (amended): build_lut never signals an error: even with fewer
samples than the 35 polynomial terms of the order-4 expansion, the
least-squares step still yields a model (np.linalg.lstsq returns a
minimum-norm solution for underdetermined systems rather than raising)
and a full lut_size cubed LUT is produced. -/
theorem insufficient_data_not_raised (sqrtFn : SqrtFn) (lstsq : Solver) (src tgt : List V3)
    (cfg : ClipConfig) (hsmall : src.length < (expand_poly_single 0 0 0 4).length) :
    ((build_lut sqrtFn lstsq src tgt cfg).lut).length = cfg.lutSize
    ∧ ∀ plane ∈ (build_lut sqrtFn lstsq src tgt cfg).lut, plane.length = cfg.lutSize
        ∧ ∀ row ∈ plane, row.length = cfg.lutSize := by
  rw [build_lut_lut]
  refine ⟨by simp, ?_⟩
  intro plane hplane
  rcases List.mem_map.mp hplane with ⟨ri, _, rfl⟩
  refine ⟨by simp, ?_⟩
  intro row hrow
  rcases List.mem_map.mp hrow with ⟨gi, _, rfl⟩
  simp

/-- C7 counterexample: a one-sample input (fewer samples than the 35
polynomial terms) still produces a full 2x2x2 LUT with a defined cell
value; no InsufficientDataError exists in the code and nothing is
raised. -/
theorem insufficient_data_counterexample :
    ([((1 : ℚ)/2, 1/2, 1/2)] : List V3).length < (expand_poly_single 0 0 0 4).length
    ∧ ((build_lut (fun q => q) (fun _ _ => []) [((1 : ℚ)/2, 1/2, 1/2)]
        [((1 : ℚ)/2, 1/2, 1/2)] ⟨2, 3/2, 3, 10⟩).lut).length = 2
    ∧ (((build_lut (fun q => q) (fun _ _ => []) [((1 : ℚ)/2, 1/2, 1/2)]
        [((1 : ℚ)/2, 1/2, 1/2)] ⟨2, 3/2, 3, 10⟩).lut.getD 0 []).getD 0 []).getD 0 (1, 1, 1)
        = ((0 : ℚ), 0, 0) := by
  refine ⟨by decide, by rw [build_lut_lut]; simp, ?_⟩
  have h2 : (0 : ℕ) < 2 := by decide
  rw [build_lut_lut, getD_range_map _ _ h2, getD_range_map _ _ h2, getD_range_map _ _ h2]
  have hM : (build_lut (fun q => q) (fun _ _ => ([] : List V3)) [((1 : ℚ)/2, 1/2, 1/2)]
      [((1 : ℚ)/2, 1/2, 1/2)] ⟨2, 3/2, 3, 10⟩).model = [] := rfl
  rw [hM]
  simp only [lutCell, clip3, matVec3_nil]
  norm_num [clip01]

lemma length_flatMap_const (f : ℕ → List V3) (m : ℕ) :
    ∀ (l : List ℕ), (∀ x ∈ l, (f x).length = m) → (l.flatMap f).length = l.length * m
  | [], _ => by simp
  | a :: t, hf => by
    rw [List.flatMap_cons, List.length_append, hf a (by simp),
      length_flatMap_const f m t (fun x hx => hf x (by simp [hx]))]
    simp [Nat.succ_mul]
    omega

lemma getD_range (d : ℕ) {i n : ℕ} (h : i < n) : (List.range n).getD i d = i := by
  rw [getD_eq_get _ _ (by simpa using h)]
  simp

lemma getD_flatMap (f : ℕ → List V3) (m : ℕ) (d : V3) :
    ∀ (l : List ℕ), (∀ x ∈ l, (f x).length = m) → ∀ (i j : ℕ), i < l.length → j < m →
      (l.flatMap f).getD (i * m + j) d = (f (l.getD i 0)).getD j d
  | [], _, i, j, hi, _ => by simp at hi
  | a :: t, hf, 0, j, hi, hj => by
    rw [List.flatMap_cons, zero_mul, zero_add,
      List.getD_append _ _ _ _ (by rw [hf a (by simp)]; exact hj)]
    simp
  | a :: t, hf, i + 1, j, hi, hj => by
    rw [List.flatMap_cons,
      List.getD_append_right _ _ _ _ (by rw [hf a (by simp)]; nlinarith),
      hf a (by simp)]
    have harith : (i + 1) * m + j - m = i * m + j := by
      rw [Nat.succ_mul]
      omega
    rw [harith,
      getD_flatMap f m d t (fun x hx => hf x (by simp [hx])) i j (by simpa using hi) hj]
    simp

/-- C8: for the generate_profiles.py writer, the data line at position
b * N^2 + g * N + r is the cell (r, g, b), as claimed (R fastest, B
slowest); but the scripts/generate_lut.py writer violates this: on the
identity-coded 2x2x2 LUT its data line 1 = 0 * 4 + 0 * 2 + 1 is the cell
(0, 0, 1), not the required cell (1, 0, 0) - that writer iterates r
outermost and b innermost, i.e. B fastest. -/
theorem write_cube_row_order (lut : List (List (List V3))) (size b g r : ℕ)
    (hb : b < size) (hg : g < size) (hr : r < size) :
    (writeCubeData lut size).getD (b * (size * size) + g * size + r) (0, 0, 0)
        = ((lut.getD r []).getD g []).getD b (0, 0, 0)
    ∧ (writeCubeDataGL glLutCex 2).getD (0 * (2 * 2) + 0 * 2 + 1) (0, 0, 0) = ((0 : ℚ), 0, 1)
    ∧ ((glLutCex.getD 1 []).getD 0 []).getD 0 (0, 0, 0) = ((1 : ℚ), 0, 0)
    ∧ ((0 : ℚ), (0 : ℚ), (1 : ℚ)) ≠ ((1 : ℚ), (0 : ℚ), (0 : ℚ)) := by
  refine ⟨?_, by decide, by decide, by decide⟩
  have hinner_len : ∀ bv ∈ List.range size,
      ((List.range size).flatMap (fun gv =>
        (List.range size).map (fun rv => ((lut.getD rv []).getD gv []).getD bv (0, 0, 0)))).length
        = size * size := by
    intro bv _
    rw [length_flatMap_const _ size _ (fun x _ => by simp)]
    simp
  have hj : g * size + r < size * size := by
    calc g * size + r < g * size + size := by omega
      _ = (g + 1) * size := by rw [Nat.succ_mul]
      _ ≤ size * size := Nat.mul_le_mul_right size hg
  rw [writeCubeData, add_assoc,
    getD_flatMap _ (size * size) _ (List.range size) hinner_len b (g * size + r)
      (by simpa using hb) hj,
    getD_range 0 hb,
    getD_flatMap _ size _ (List.range size) (fun x _ => by simp) g r (by simpa using hg) hr,
    getD_range 0 hg,
    getD_range_map _ _ hr]

lemma everyNth_isEmpty_false (step : ℕ) (l : List V3) (h : l ≠ []) :
    (everyNth step l).isEmpty = false := by
  have h0 : 0 ∈ (List.range l.length).filter (fun i => i % step == 0) := by
    rw [List.mem_filter]
    exact ⟨List.mem_range.mpr (List.length_pos.mpr h), by simp⟩
  have hpos : 0 < (everyNth step l).length := by
    rw [everyNth, List.length_map]
    exact List.length_pos_of_mem h0
  cases hE : everyNth step l with
  | nil => rw [hE] at hpos; simp at hpos
  | cons a t => rfl

/-- C9 counterexample: on the empty sample array analyze_coverage does
not return a suggestion list: the hsv column indexing fails (IndexError
on the shape-(0,) array), modelled as none. -/
theorem analyze_coverage_empty_counterexample : analyze_coverage [] = none := rfl

/-- C9 (amended): for every nonempty input array of source RGB samples,
analyze_coverage returns a list of advisory strings (no failure). -/
theorem analyze_coverage_total_on_nonempty (srcPixels : List V3) (h : srcPixels ≠ []) :
    (analyze_coverage srcPixels).isSome = true := by
  simp only [analyze_coverage]
  rw [everyNth_isEmpty_false _ _ h]
  simp

/-- C9 witness: a singleton sample set gets a suggestion list. -/
theorem analyze_coverage_total_witness :
    (analyze_coverage [((0 : ℚ), 0, 0)]).isSome = true :=
  analyze_coverage_total_on_nonempty [((0 : ℚ), 0, 0)] (by simp)

/-! Witnesses for the theorems with hypotheses. -/

/-- C1 witness: the amended lower bound instantiated at a concrete
two-sample input. -/
theorem survivor_floor_amended_witness :
    min (everyNth (subStep cexSrc.length) cexSrc).length
        (minSurvivorsOf (everyNth (subStep cexSrc.length) cexSrc).length 10)
      ≤ countTrue (build_lut (fun q => q) (fun _ _ => []) cexSrc cexSrc
          ⟨2, 3/2, 3, 10⟩).finalMask :=
  (survivor_floor_amended (fun q => q) (fun _ _ => []) cexSrc cexSrc ⟨2, 3/2, 3, 10⟩ rfl).1

/-- C3 witness: a concrete round that trips the floor halts the loop on
the floor-protection mask. -/
theorem floor_round_behavior_witness :
    clipLoop (fun q => q) 0 2 (fun _ => [(0 : ℚ), 1]) (0 + 1) [true, true]
      = floorMask ([true, true] : List Bool).length [true, true]
          ((fun _ => [(0 : ℚ), 1]) [true, true]) 2 :=
  (floor_round_behavior (fun q => q) 0 2 (fun _ => [(0 : ℚ), 1]) [true, true] 0
      rfl
      (by decide)
      (by
        have h2 : inlierLocal 0 (fun q => q) [(0 : ℚ), 1] = [true, false] := by
          norm_num [inlierLocal, npStd, listMean, listSum]
        simp only []
        rw [h2]
        decide)).1

set_option maxHeartbeats 1000000 in
/-- C6 witness: the corner node (0, 0, 0) of a concrete degenerate fit. -/
theorem lut_rasterization_witness :
    ((((build_lut (fun q => q) (fun _ _ => []) [((1 : ℚ)/2, 1/2, 1/2)]
        [((1 : ℚ)/2, 1/2, 1/2)] ⟨2, 3/2, 3, 10⟩).lut.getD 0 []).getD 0 []).getD 0 (0, 0, 0)
        = clip3 (matVec3
            (expand_poly_single
              (rgb_to_lrg_single (((0 : ℕ) : ℚ) / (((2 : ℕ) : ℚ) - 1))
                (((0 : ℕ) : ℚ) / (((2 : ℕ) : ℚ) - 1))
                (((0 : ℕ) : ℚ) / (((2 : ℕ) : ℚ) - 1))).1
              (rgb_to_lrg_single (((0 : ℕ) : ℚ) / (((2 : ℕ) : ℚ) - 1))
                (((0 : ℕ) : ℚ) / (((2 : ℕ) : ℚ) - 1))
                (((0 : ℕ) : ℚ) / (((2 : ℕ) : ℚ) - 1))).2.1
              (rgb_to_lrg_single (((0 : ℕ) : ℚ) / (((2 : ℕ) : ℚ) - 1))
                (((0 : ℕ) : ℚ) / (((2 : ℕ) : ℚ) - 1))
                (((0 : ℕ) : ℚ) / (((2 : ℕ) : ℚ) - 1))).2.2
              4)
            (build_lut (fun q => q) (fun _ _ => []) [((1 : ℚ)/2, 1/2, 1/2)]
              [((1 : ℚ)/2, 1/2, 1/2)] ⟨2, 3/2, 3, 10⟩).model))
    ∧ (let cell := (((build_lut (fun q => q) (fun _ _ => []) [((1 : ℚ)/2, 1/2, 1/2)]
          [((1 : ℚ)/2, 1/2, 1/2)] ⟨2, 3/2, 3, 10⟩).lut.getD 0 []).getD 0 []).getD 0 (0, 0, 0)
       (0 ≤ cell.1 ∧ cell.1 ≤ 1) ∧ (0 ≤ cell.2.1 ∧ cell.2.1 ≤ 1)
         ∧ (0 ≤ cell.2.2 ∧ cell.2.2 ≤ 1)) :=
  lut_rasterization (fun q => q) (fun _ _ => []) [((1 : ℚ)/2, 1/2, 1/2)]
    [((1 : ℚ)/2, 1/2, 1/2)] ⟨2, 3/2, 3, 10⟩ 0 0 0 (by decide) (by decide) (by decide)

set_option maxHeartbeats 1000000 in
/-- C7 witness: a one-sample fit still produces a LUT with the full grid
extent. -/
theorem insufficient_data_not_raised_witness :
    ((build_lut (fun q => q) (fun _ _ => []) [((1 : ℚ)/2, 1/2, 1/2)]
        [((1 : ℚ)/2, 1/2, 1/2)] ⟨2, 3/2, 3, 10⟩).lut).length = 2 :=
  (insufficient_data_not_raised (fun q => q) (fun _ _ => []) [((1 : ℚ)/2, 1/2, 1/2)]
    [((1 : ℚ)/2, 1/2, 1/2)] ⟨2, 3/2, 3, 10⟩ (by decide)).1

/-- C8 witness: the position formula at cell (1, 0, 0) of the
identity-coded 2x2x2 LUT, together with the generate_lut.py divergence. -/
theorem write_cube_row_order_witness :
    (writeCubeData glLutCex 2).getD (0 * (2 * 2) + 0 * 2 + 1) (0, 0, 0)
        = ((glLutCex.getD 1 []).getD 0 []).getD 0 (0, 0, 0)
    ∧ (writeCubeDataGL glLutCex 2).getD (0 * (2 * 2) + 0 * 2 + 1) (0, 0, 0) = ((0 : ℚ), 0, 1)
    ∧ ((glLutCex.getD 1 []).getD 0 []).getD 0 (0, 0, 0) = ((1 : ℚ), 0, 0)
    ∧ ((0 : ℚ), (0 : ℚ), (1 : ℚ)) ≠ ((1 : ℚ), (0 : ℚ), (0 : ℚ)) :=
  write_cube_row_order glLutCex 2 0 0 1 (by decide) (by decide) (by decide)

/-- C10 witness: a sample still inlier after a concrete full loop run was
inlier at the start. -/
theorem inlier_mask_shrinks_witness :
    (clipLoop (fun q => q) 1 0 (fun m => List.replicate (countTrue m) 0) 1 [true]).getD 0 false
        = true
    ∧ ([true] : List Bool).getD 0 false = true := by
  have hA : (clipLoop (fun q => q) 1 0 (fun m => List.replicate (countTrue m) 0) 1
      [true]).getD 0 false = true := by
    have hcommit : ¬ countTrue (inlierLocal 1 (fun q => q)
        (List.replicate (countTrue [true]) (0 : ℚ))) < 0 := by omega
    rw [show (1 : ℕ) = 0 + 1 from rfl, clipLoop,
      clipStep_commit (fun q => q) 1 0 (fun m => List.replicate (countTrue m) 0) [true] hcommit]
    have hres1 : List.replicate (countTrue [true]) (0 : ℚ) = [0] := rfl
    have hil1 : inlierLocal 1 (fun q => q) [(0 : ℚ)] = [true] := by
      norm_num [inlierLocal, npStd, listMean, listSum]
    simp only [Bool.false_eq_true, if_false, clipLoop]
    rw [hres1, hil1]
    decide
  exact ⟨hA, (inlier_mask_shrinks (fun q => q) 1 0
      (fun m => List.replicate (countTrue m) 0) [true] (fun m _ => by simp [countTrue]) 1 0).2 hA⟩

end TrussPhoto
